import Mathlib

/-!
Verification of the dodge-game core (`src/main.rs`).

The game state (`Game`) and its operations are embedded shallowly:
`u16`/`u64` machine integers become `Nat` (the only arithmetic in the
source is `saturating_sub`, which is `Nat` subtraction, an unchecked
`+ 1` on obstacle rows whose non-overflow is proved separately, and
clamped moves), the obstacle `Vec` becomes a `List`, and the
thread-local RNG draws of `update` become an explicit per-column
decision function `spawn : Nat → Bool`.
-/

/-- `FallingBlock { x, y }` from the source: one obstacle cell. -/
structure FallingBlock where
  x : Nat
  y : Nat
deriving DecidableEq, Repr

/-- `Game` from the source: player position, obstacles, score, board size. -/
structure Game where
  player_x : Nat
  player_y : Nat
  blocks : List FallingBlock
  score : Nat
  width : Nat
  height : Nat
deriving DecidableEq, Repr

namespace Game

/-- `Game::new(width, height)`: player at `(width / 2, height.saturating_sub(2))`,
no obstacles, score 0. -/
def new (width height : Nat) : Game :=
  { player_x := width / 2
    player_y := height - 2
    blocks := []
    score := 0
    width := width
    height := height }

/-- Spawn loop of `Game::update`: for each `x in 0..self.width` whose
random draw succeeds, push `FallingBlock { x, y: 0 }`. -/
def spawnPhase (spawn : Nat → Bool) (g : Game) : Game :=
  { g with blocks := (g.blocks ++ ((List.range g.width).filter spawn).map
      (fun x => FallingBlock.mk x 0)) }

/-- Advance loop of `Game::update`: `block.y += 1` for every block. -/
def advancePhase (g : Game) : Game :=
  { g with blocks := g.blocks.map (fun b => { b with y := b.y + 1 }) }

/-- Cull of `Game::update`: `self.blocks.retain(|block| block.y < self.height)`. -/
def cullPhase (g : Game) : Game :=
  { g with blocks := g.blocks.filter (fun b => b.y < g.height) }

/-- Score step of `Game::update`: `self.score += 1`. -/
def scorePhase (g : Game) : Game :=
  { g with score := g.score + 1 }

/-- `Game::update`, with the RNG draws supplied as `spawn`: spawn new
blocks along the top row, move every block down, retain blocks with
`y < height`, increment the score. -/
def update (spawn : Nat → Bool) (g : Game) : Game :=
  { g with
    blocks :=
      (((g.blocks ++ ((List.range g.width).filter spawn).map
          (fun x => FallingBlock.mk x 0)).map
        (fun b => { b with y := b.y + 1 })).filter
        (fun b => b.y < g.height))
    score := g.score + 1 }

/-- `Game::check_collision`: some block sits exactly on the player cell. -/
def check_collision (g : Game) : Bool :=
  g.blocks.any (fun b => b.x == g.player_x && b.y == g.player_y)

end Game

/-- The two movement inputs handled by the driver loop. -/
inductive Move where
  | left
  | right
deriving DecidableEq, Repr

/-- The key handling of `main`: `Left` decrements `player_x` when it is
positive, `Right` increments it when it is below `width.saturating_sub(1)`. -/
def applyMove (m : Move) (g : Game) : Game :=
  match m with
  | Move.left => if 0 < g.player_x then { g with player_x := g.player_x - 1 } else g
  | Move.right =>
      if g.player_x < g.width - 1 then { g with player_x := g.player_x + 1 } else g

/-- A sequence of movement inputs applied in order. -/
def applyMoves (moves : List Move) (g : Game) : Game :=
  moves.foldl (fun g m => applyMove m g) g

/-- Run `n` ticks of `Game.update`; `sched t` gives tick `t`'s spawn draws. -/
def runSchedule (sched : Nat → Nat → Bool) : Nat → Game → Game
  | 0, g => g
  | n + 1, g => Game.update (sched n) (runSchedule sched n g)

/-- One event the driver loop can process between renders: a movement
key, or a tick (with its spawn draws). -/
inductive GameAct where
  | move (m : Move)
  | tick (spawn : Nat → Bool)

/-- Effect of one driver event on the game state. -/
def applyAction (a : GameAct) (g : Game) : Game :=
  match a with
  | GameAct.move m => applyMove m g
  | GameAct.tick spawn => Game.update spawn g

/-- A whole interleaving of moves and ticks, as in the driver loop. -/
def run (acts : List GameAct) (g : Game) : Game :=
  acts.foldl (fun g a => applyAction a g) g

/-- Keys the driver loop distinguishes: the arrows, `q`/`Esc`, everything else. -/
inductive Key where
  | left
  | right
  | quit
  | other
deriving DecidableEq, Repr

/-- Status of the driver loop: still in `'game_loop`, or broken out of it
by a detected collision, or by a quit key. -/
inductive DStatus where
  | running
  | gameOver
  | stopped
deriving DecidableEq, Repr

/-- One driver event: a key press, or an elapsed tick. -/
inductive Ev where
  | key (k : Key)
  | tick (spawn : Nat → Bool)

/-- One iteration of `main`'s `'game_loop` acting on status and state:
while running, a key press moves the player or quits, and a tick runs
`update` and then `check_collision`, breaking to game over on a hit.
After the loop has been broken out of, nothing is processed. -/
def driverStep (s : DStatus × Game) (e : Ev) : DStatus × Game :=
  match s.1 with
  | DStatus.gameOver => s
  | DStatus.stopped => s
  | DStatus.running =>
    match e with
    | Ev.key Key.left => (DStatus.running, applyMove Move.left s.2)
    | Ev.key Key.right => (DStatus.running, applyMove Move.right s.2)
    | Ev.key Key.quit => (DStatus.stopped, s.2)
    | Ev.key Key.other => (DStatus.running, s.2)
    | Ev.tick spawn =>
        let g := Game.update spawn s.2
        if g.check_collision then (DStatus.gameOver, g) else (DStatus.running, g)

section Helpers

/-- `update` leaves the player and the board dimensions alone. -/
theorem Game.update_player_x (spawn : Nat → Bool) (g : Game) :
    (Game.update spawn g).player_x = g.player_x := rfl

theorem Game.update_player_y (spawn : Nat → Bool) (g : Game) :
    (Game.update spawn g).player_y = g.player_y := rfl

theorem Game.update_width (spawn : Nat → Bool) (g : Game) :
    (Game.update spawn g).width = g.width := rfl

theorem Game.update_height (spawn : Nat → Bool) (g : Game) :
    (Game.update spawn g).height = g.height := rfl

theorem Game.update_score (spawn : Nat → Bool) (g : Game) :
    (Game.update spawn g).score = g.score + 1 := rfl

/-- Every block surviving `update` passed the `y < height` retain test. -/
theorem Game.update_blocks_lt (spawn : Nat → Bool) (g : Game) :
    ∀ b ∈ (Game.update spawn g).blocks, b.y < g.height := by
  intro b hb
  simp only [Game.update, List.mem_filter, decide_eq_true_eq] at hb
  exact hb.2

end Helpers

/-- C1: a call to `update` is exactly the spawn, advance, cull and score
phases in that fixed order, and every obstacle spawned during the call
(the tail that the spawn phase appended) has `y = 1` once the advance
phase has run, hence when `update` returns. -/
theorem update_four_phases (spawn : Nat → Bool) (g : Game) :
    Game.update spawn g
      = Game.scorePhase (Game.cullPhase (Game.advancePhase (Game.spawnPhase spawn g)))
    ∧ ∀ b ∈ (Game.advancePhase (Game.spawnPhase spawn g)).blocks.drop g.blocks.length,
        b.y = 1 := by
  constructor
  · rfl
  · intro b hb
    have hdrop : (Game.advancePhase (Game.spawnPhase spawn g)).blocks.drop g.blocks.length
        = (((List.range g.width).filter spawn).map (fun x => FallingBlock.mk x 0)).map
            (fun b => { b with y := b.y + 1 }) := by
      show ((g.blocks ++ _).map _).drop g.blocks.length = _
      rw [List.map_append, ← List.length_map g.blocks (fun b => { b with y := b.y + 1 }),
        List.drop_left]
    rw [hdrop, List.map_map] at hb
    simp only [List.mem_map, Function.comp] at hb
    obtain ⟨x, -, rfl⟩ := hb
    rfl

/-- Witness for C1 at a concrete state. -/
theorem update_four_phases_witness :
    FallingBlock.mk 0 1
        ∈ (Game.advancePhase (Game.spawnPhase (fun _ => true)
            (Game.new 2 5))).blocks.drop (Game.new 2 5).blocks.length
    ∧ (FallingBlock.mk 0 1).y = 1 :=
  ⟨by decide,
    (update_four_phases (fun _ => true) (Game.new 2 5)).2 (FallingBlock.mk 0 1) (by decide)⟩

/-- C2: after `update` returns, every obstacle satisfies `0 ≤ y < height`;
anything that reached `y ≥ height` this tick was culled before the return. -/
theorem update_cull_invariant (spawn : Nat → Bool) (g : Game) :
    ∀ b ∈ (Game.update spawn g).blocks,
      0 ≤ b.y ∧ b.y < (Game.update spawn g).height := by
  intro b hb
  exact ⟨Nat.zero_le _, Game.update_blocks_lt spawn g b hb⟩

/-- Witness for C2 at a concrete state. -/
theorem update_cull_invariant_witness :
    FallingBlock.mk 0 1 ∈ (Game.update (fun _ => true) (Game.new 2 5)).blocks
    ∧ 0 ≤ (FallingBlock.mk 0 1).y
    ∧ (FallingBlock.mk 0 1).y < (Game.update (fun _ => true) (Game.new 2 5)).height :=
  ⟨by decide,
    (update_cull_invariant (fun _ => true) (Game.new 2 5) (FallingBlock.mk 0 1)
      (by decide)).1,
    (update_cull_invariant (fun _ => true) (Game.new 2 5) (FallingBlock.mk 0 1)
      (by decide)).2⟩

/-- C4: `check_collision` returns `true` iff some obstacle occupies
exactly the player's cell; being a plain function of the state it has no
side effects. -/
theorem check_collision_iff (g : Game) :
    Game.check_collision g = true
      ↔ ∃ b ∈ g.blocks, b.x = g.player_x ∧ b.y = g.player_y := by
  simp [Game.check_collision, List.any_eq_true, Bool.and_eq_true, beq_iff_eq]

section Helpers2

/-- Running `n` ticks adds `n` to the score, whatever the spawn draws. -/
theorem runSchedule_score (sched : Nat → Nat → Bool) (n : Nat) (g : Game) :
    (runSchedule sched n g).score = g.score + n := by
  induction n with
  | zero => rfl
  | succ n ih =>
      show (Game.update (sched n) (runSchedule sched n g)).score = g.score + (n + 1)
      rw [Game.update_score, ih, Nat.add_assoc]

/-- With every spawn draw failing, an empty obstacle list stays empty. -/
theorem runSchedule_false_blocks (n : Nat) (g : Game) (hg : g.blocks = []) :
    (runSchedule (fun _ _ => false) n g).blocks = [] := by
  induction n with
  | zero => exact hg
  | succ n ih =>
      show (Game.update (fun _ => false) (runSchedule (fun _ _ => false) n g)).blocks = []
      simp [Game.update, ih]

end Helpers2

/-- C5: `n` ticks from a fresh state give score `n`; each `update`
increments the score by exactly 1 (so the score is monotone); and with
all spawn draws failing, the obstacle set stays empty while the score
still reaches `n`. -/
theorem score_after_n_ticks (sched : Nat → Nat → Bool) (w h n : Nat) :
    (runSchedule sched n (Game.new w h)).score = n
    ∧ (∀ g : Game, (Game.update (sched 0) g).score = g.score + 1)
    ∧ (∀ g : Game, g.score ≤ (Game.update (sched 0) g).score)
    ∧ (runSchedule (fun _ _ => false) n (Game.new w h)).blocks = []
    ∧ (runSchedule (fun _ _ => false) n (Game.new w h)).score = n := by
  refine ⟨?_, fun g => Game.update_score _ g, ?_, ?_, ?_⟩
  · rw [runSchedule_score]; exact Nat.zero_add n
  · intro g; rw [Game.update_score]; omega
  · exact runSchedule_false_blocks n (Game.new w h) rfl
  · rw [runSchedule_score]; exact Nat.zero_add n

/-- C6: `Game::new` puts the player at `(width / 2, height - 2)` (the
`y` saturating to 0 when `height < 2`), with no obstacles and score 0. -/
theorem new_initial_state (w h : Nat) :
    (Game.new w h).player_x = w / 2
    ∧ (Game.new w h).player_y = h - 2
    ∧ (h < 2 → (Game.new w h).player_y = 0)
    ∧ (Game.new w h).blocks = []
    ∧ (Game.new w h).score = 0
    ∧ (Game.new w h).width = w
    ∧ (Game.new w h).height = h := by
  refine ⟨rfl, rfl, ?_, rfl, rfl, rfl, rfl⟩
  intro hh
  show h - 2 = 0
  omega

/-- Witness for C6 at a concrete board with `height < 2`. -/
theorem new_initial_state_witness :
    (1:Nat) < 2 ∧ (Game.new 4 1).player_y = 0 :=
  ⟨by decide, (new_initial_state 4 1).2.2.1 (by decide)⟩

/-- C7: on a 10×10 board the player starts at `(5, 8)`; an obstacle
force-spawned at `(5, 0)` followed by 8 spawn-free ticks sits at `(5, 8)`
and `check_collision` reports the hit. -/
theorem scenario_8_ticks_collision :
    (Game.new 10 10).player_x = 5
    ∧ (Game.new 10 10).player_y = 8
    ∧ (runSchedule (fun _ _ => false) 8
        { Game.new 10 10 with blocks := [FallingBlock.mk 5 0] }).blocks
      = [FallingBlock.mk 5 8]
    ∧ Game.check_collision
        (runSchedule (fun _ _ => false) 8
          { Game.new 10 10 with blocks := [FallingBlock.mk 5 0] }) = true := by
  decide

section Helpers3

/-- A move changes at most `player_x`: every other field is untouched. -/
theorem applyMove_frame (m : Move) (g : Game) :
    (applyMove m g).player_y = g.player_y
    ∧ (applyMove m g).blocks = g.blocks
    ∧ (applyMove m g).score = g.score
    ∧ (applyMove m g).width = g.width
    ∧ (applyMove m g).height = g.height := by
  cases m <;> simp only [applyMove] <;> split <;> exact ⟨rfl, rfl, rfl, rfl, rfl⟩

/-- A move keeps `player_x` strictly below the board width. -/
theorem applyMove_x_lt (m : Move) (g : Game) (hx : g.player_x < g.width) :
    (applyMove m g).player_x < g.width := by
  cases m <;> simp only [applyMove] <;> split
  · exact lt_of_le_of_lt (Nat.sub_le _ _) hx
  · exact hx
  · show g.player_x + 1 < g.width
    omega
  · exact hx

/-- The clamping invariant survives any sequence of moves. -/
theorem applyMoves_x_lt (moves : List Move) (g : Game) (hx : g.player_x < g.width) :
    (applyMoves moves g).player_x < (applyMoves moves g).width := by
  induction moves generalizing g with
  | nil => exact hx
  | cons m ms ih =>
      show (applyMoves ms (applyMove m g)).player_x < (applyMoves ms (applyMove m g)).width
      refine ih (applyMove m g) ?_
      rw [(applyMove_frame m g).2.2.2.1]
      exact applyMove_x_lt m g hx

/-- Moves never touch the player's row. -/
theorem applyMoves_player_y (moves : List Move) (g : Game) :
    (applyMoves moves g).player_y = g.player_y := by
  induction moves generalizing g with
  | nil => rfl
  | cons m ms ih =>
      show (applyMoves ms (applyMove m g)).player_y = g.player_y
      rw [ih (applyMove m g), (applyMove_frame m g).1]

end Helpers3

/-- C3 counterexample: on a zero-width board the claim fails already
after the empty input sequence — the fresh player sits at `x = 0`, which
is not `< width = 0`. -/
theorem player_clamp_counterexample :
    ¬ ((applyMoves [] (Game.new 0 0)).player_x
        < (applyMoves [] (Game.new 0 0)).width) := by
  decide

/-- C3 amended: on every board of width at least 1, under any sequence of
left/right inputs the player keeps `0 ≤ x < width` and a fixed `y`;
"left" at `x = 0` and "right" at `x = width - 1` are no-ops, and
otherwise the moves step `x` by one. -/
theorem player_clamp_invariant (w h : Nat) (hw : 1 ≤ w) (moves : List Move) :
    (applyMoves moves (Game.new w h)).player_x
        < (applyMoves moves (Game.new w h)).width
    ∧ (applyMoves moves (Game.new w h)).player_y = (Game.new w h).player_y
    ∧ (∀ g : Game, g.player_x = 0 → applyMove Move.left g = g)
    ∧ (∀ g : Game, 0 < g.player_x →
        (applyMove Move.left g).player_x = g.player_x - 1)
    ∧ (∀ g : Game, g.player_x = g.width - 1 → applyMove Move.right g = g)
    ∧ (∀ g : Game, g.player_x < g.width - 1 →
        (applyMove Move.right g).player_x = g.player_x + 1) := by
  refine ⟨?_, applyMoves_player_y moves (Game.new w h), ?_, ?_, ?_, ?_⟩
  · refine applyMoves_x_lt moves (Game.new w h) ?_
    show w / 2 < w
    omega
  · intro g hg
    simp only [applyMove, hg]
    rfl
  · intro g hg
    simp only [applyMove, if_pos hg]
  · intro g hg
    have : ¬ (g.player_x < g.width - 1) := by omega
    simp only [applyMove, if_neg this]
  · intro g hg
    simp only [applyMove, if_pos hg]

/-- Witness for the amended C3 at a concrete board and input sequence. -/
theorem player_clamp_invariant_witness :
    (1:Nat) ≤ 2
    ∧ (applyMoves [Move.left, Move.right] (Game.new 2 5)).player_x
        < (applyMoves [Move.left, Move.right] (Game.new 2 5)).width :=
  ⟨by decide, (player_clamp_invariant 2 5 (by decide) [Move.left, Move.right]).1⟩

/-- C8: `gameOver` and `stopped` are terminal and absorbing (no tick or
move is ever applied after them); from `running`, a tick whose collision
check fires goes to `gameOver`, the quit key goes to `stopped`, and these
are the only ways to leave `running` — a collision-free tick and every
non-quit key stay `running`. -/
theorem driver_state_machine (g : Game) (spawn : Nat → Bool) (e : Ev) :
    (∀ g2 : Game, driverStep (DStatus.gameOver, g2) e = (DStatus.gameOver, g2))
    ∧ (∀ g2 : Game, driverStep (DStatus.stopped, g2) e = (DStatus.stopped, g2))
    ∧ (Game.check_collision (Game.update spawn g) = true →
        driverStep (DStatus.running, g) (Ev.tick spawn)
          = (DStatus.gameOver, Game.update spawn g))
    ∧ driverStep (DStatus.running, g) (Ev.key Key.quit) = (DStatus.stopped, g)
    ∧ (Game.check_collision (Game.update spawn g) = false →
        driverStep (DStatus.running, g) (Ev.tick spawn)
          = (DStatus.running, Game.update spawn g))
    ∧ (∀ k : Key, k ≠ Key.quit →
        (driverStep (DStatus.running, g) (Ev.key k)).1 = DStatus.running) := by
  refine ⟨fun g2 => rfl, fun g2 => rfl, ?_, rfl, ?_, ?_⟩
  · intro hc
    simp only [driverStep, hc]
    rfl
  · intro hc
    simp only [driverStep, hc]
    rfl
  · intro k hk
    cases k with
    | left => rfl
    | right => rfl
    | quit => exact absurd rfl hk
    | other => rfl

/-- Witness for C8: a tick into a collision at a concrete state. -/
theorem driver_state_machine_witness :
    Game.check_collision (Game.update (fun _ => false)
        { Game.new 10 10 with blocks := [FallingBlock.mk 5 7] }) = true
    ∧ driverStep
        (DStatus.running, { Game.new 10 10 with blocks := [FallingBlock.mk 5 7] })
        (Ev.tick (fun _ => false))
      = (DStatus.gameOver, Game.update (fun _ => false)
          { Game.new 10 10 with blocks := [FallingBlock.mk 5 7] }) :=
  ⟨by decide,
    (driver_state_machine { Game.new 10 10 with blocks := [FallingBlock.mk 5 7] }
      (fun _ => false) (Ev.tick (fun _ => false))).2.2.1 (by decide)⟩

/-- C9: `update` changes only the obstacles and the score — the player
and the board dimensions are untouched, and every surviving obstacle
either descends from an existing one (same column, row + 1) or is a
fresh spawn at row 1 in a drawn column; a move changes only `player_x`. -/
theorem update_move_frame (spawn : Nat → Bool) (g : Game) (m : Move) :
    (Game.update spawn g).player_x = g.player_x
    ∧ (Game.update spawn g).player_y = g.player_y
    ∧ (Game.update spawn g).width = g.width
    ∧ (Game.update spawn g).height = g.height
    ∧ (∀ b ∈ (Game.update spawn g).blocks,
        (∃ b0 ∈ g.blocks, b.x = b0.x ∧ b.y = b0.y + 1)
        ∨ (spawn b.x = true ∧ b.x < g.width ∧ b.y = 1))
    ∧ (applyMove m g).blocks = g.blocks
    ∧ (applyMove m g).score = g.score
    ∧ (applyMove m g).width = g.width
    ∧ (applyMove m g).height = g.height
    ∧ (applyMove m g).player_y = g.player_y := by
  have hf := applyMove_frame m g
  refine ⟨rfl, rfl, rfl, rfl, ?_, hf.2.1, hf.2.2.1, hf.2.2.2.1, hf.2.2.2.2, hf.1⟩
  intro b hb
  simp only [Game.update, List.mem_filter, List.mem_map, List.mem_append,
    List.mem_range, decide_eq_true_eq] at hb
  obtain ⟨⟨a, ha, rfl⟩, -⟩ := hb
  rcases ha with ha | ha
  · exact Or.inl ⟨a, ha, rfl, rfl⟩
  · obtain ⟨x, ⟨hxr, hxs⟩, rfl⟩ := ha
    exact Or.inr ⟨hxs, hxr, rfl⟩

/-- Witness for C9: a freshly spawned obstacle at a concrete state. -/
theorem update_move_frame_witness :
    FallingBlock.mk 0 1 ∈ (Game.update (fun _ => true) (Game.new 2 5)).blocks
    ∧ ((∃ b0 ∈ (Game.new 2 5).blocks,
          (FallingBlock.mk 0 1).x = b0.x ∧ (FallingBlock.mk 0 1).y = b0.y + 1)
        ∨ ((fun _ : Nat => true) (FallingBlock.mk 0 1).x = true
            ∧ (FallingBlock.mk 0 1).x < (Game.new 2 5).width
            ∧ (FallingBlock.mk 0 1).y = 1)) :=
  ⟨by decide,
    (update_move_frame (fun _ => true) (Game.new 2 5) Move.left).2.2.2.2.1
      (FallingBlock.mk 0 1) (by decide)⟩

section Helpers4

/-- Neither a move nor a tick changes the board height. -/
theorem run_height (acts : List GameAct) (g : Game) :
    (run acts g).height = g.height := by
  induction acts generalizing g with
  | nil => rfl
  | cons a acts ih =>
      show (run acts (applyAction a g)).height = g.height
      rw [ih (applyAction a g)]
      cases a with
      | move m => exact (applyMove_frame m g).2.2.2.2
      | tick spawn => rfl

/-- The culling invariant is preserved along any interleaving of moves
and ticks. -/
theorem run_blocks_lt (acts : List GameAct) (g : Game)
    (hg : ∀ b ∈ g.blocks, b.y < g.height) :
    ∀ b ∈ (run acts g).blocks, b.y < (run acts g).height := by
  induction acts generalizing g with
  | nil => exact hg
  | cons a acts ih =>
      show ∀ b ∈ (run acts (applyAction a g)).blocks,
        b.y < (run acts (applyAction a g)).height
      refine ih (applyAction a g) ?_
      cases a with
      | move m =>
          intro b hb
          simp only [applyAction] at hb ⊢
          rw [(applyMove_frame m g).2.1] at hb
          rw [(applyMove_frame m g).2.2.2.2]
          exact hg b hb
      | tick spawn =>
          intro b hb
          exact Game.update_blocks_lt spawn g b hb

end Helpers4

/-- C10: from any fresh board whose `u16` height bound holds, along any
interleaving of ticks and moves every live obstacle stays strictly below
the board height, so at the point the advance phase increments a row —
the obstacle list being the live ones plus fresh spawns at row 0 — the
increment stays below `2 ^ 16` and the unchecked `u16` `+ 1` cannot
overflow. -/
theorem advance_no_overflow (w h : Nat) (hh : h ≤ 65535)
    (acts : List GameAct) (spawn : Nat → Bool) :
    (∀ b ∈ (run acts (Game.new w h)).blocks,
        b.y < (run acts (Game.new w h)).height)
    ∧ (∀ b ∈ (Game.spawnPhase spawn (run acts (Game.new w h))).blocks,
        b.y + 1 < 2 ^ 16) := by
  have hrun : ∀ b ∈ (run acts (Game.new w h)).blocks,
      b.y < (run acts (Game.new w h)).height :=
    run_blocks_lt acts (Game.new w h) (by intro b hb; cases hb)
  refine ⟨hrun, ?_⟩
  intro b hb
  have hht : (run acts (Game.new w h)).height = h := run_height acts (Game.new w h)
  simp only [Game.spawnPhase, List.mem_append, List.mem_map, List.mem_filter,
    List.mem_range] at hb
  rcases hb with hb | ⟨x, -, rfl⟩
  · have := hrun b hb
    rw [hht] at this
    omega
  · show 0 + 1 < 2 ^ 16
    omega

/-- Witness for C10: a fresh spawn on a concrete reachable state. -/
theorem advance_no_overflow_witness :
    (10:Nat) ≤ 65535
    ∧ FallingBlock.mk 0 0
        ∈ (Game.spawnPhase (fun _ => true)
            (run [GameAct.tick (fun _ => true)] (Game.new 2 10))).blocks
    ∧ (FallingBlock.mk 0 0).y + 1 < 2 ^ 16 :=
  ⟨by decide, by decide,
    (advance_no_overflow 2 10 (by decide) [GameAct.tick (fun _ => true)]
      (fun _ => true)).2 (FallingBlock.mk 0 0) (by decide)⟩
